import Mathlib

/-!
Shallow embedding of the NFE101 open-data pipeline (cleaner `clean.py` and
consumer `app.py`) and proofs about the claims of the specification.

Modelling conventions:
* Python scalar values occurring in CSV cells and JSON message fields are
  modelled by `PyVal` (null / string / integer).  JSON floats, booleans and
  nested containers do not occur in the claims and are not modelled.
* Python strings are Lean `String`s; `str.strip`, `str.lower`,
  `str.replace` are re-implemented on the character list (`pyStrip`,
  `pyLower`, `pyReplaceZ`) so that kernel evaluation works.
* `int(s)` and `int(float(s))` on strings are modelled exactly for inputs
  made of an optional sign, decimal digits and one optional decimal point
  (digit-group underscores and exponent notation are not modelled: no claim
  touches them).
-/

namespace NFE101

/-- Python scalar value as it appears in a CSV cell or a JSON object field. -/
inductive PyVal where
  | vnone : PyVal
  | vs (s : String) : PyVal
  | vi (n : Int) : PyVal
deriving DecidableEq, Repr

/-- Python truthiness for the modelled scalars: `None`, `""` and `0` are falsy. -/
def pyTruthy : PyVal → Bool
  | .vnone => false
  | .vs s => s ≠ ""
  | .vi n => n ≠ 0

/-- Python `str(x)` on the modelled scalars. -/
def pyStr : PyVal → String
  | .vnone => "None"
  | .vs s => s
  | .vi n => toString n

/-- Python `x or y` on scalars (returns `y` when `x` is falsy). -/
def pyOr (a b : PyVal) : PyVal := if pyTruthy a then a else b

/-- Whitespace characters stripped by Python `str.strip()` (ASCII subset;
the vertical-tab and form-feed characters are written via `Char.ofNat`). -/
def isPySpace (c : Char) : Bool :=
  c = ' ' || c = '\t' || c = '\n' || c = '\r' || c = Char.ofNat 11 || c = Char.ofNat 12

/-- Drop the leading and trailing characters satisfying `p`. -/
def stripList (p : Char → Bool) (l : List Char) : List Char :=
  ((l.dropWhile p).reverse.dropWhile p).reverse

/-- Python `str.strip()` (default whitespace). -/
def pyStrip (s : String) : String := ⟨stripList isPySpace s.data⟩

/-- ASCII lower-casing of one character (Python `str.lower` restricted to the
ASCII range; the accented characters of the source headers are already
lower-case). -/
def pyLowerChar (c : Char) : Char :=
  if 'A' ≤ c ∧ c ≤ 'Z' then Char.ofNat (c.toNat + 32) else c

/-- Python `str.lower()` (ASCII subset). -/
def pyLower (s : String) : String := ⟨s.data.map pyLowerChar⟩

/-- clean.py `norm`: strip, lower-case, replace spaces by underscores. -/
def norm (s : String) : String :=
  ⟨((stripList isPySpace s.data).map pyLowerChar).map
      (fun c => if c = ' ' then '_' else c)⟩

/-- Numeric value of a list of decimal digits. -/
def digitsToNat (l : List Char) : Nat :=
  l.foldl (fun a c => a * 10 + (c.toNat - 48)) 0

/-- Parse of a non-empty all-digit character list. -/
def parseDigits (l : List Char) : Option Nat :=
  if l ≠ [] ∧ l.all Char.isDigit then some (digitsToNat l) else none

/-- Python `int(s)` on a string: optional surrounding whitespace, optional
sign, then decimal digits; everything else raises (modelled as `none`). -/
def pyIntOfString (s : String) : Option Int :=
  match stripList isPySpace s.data with
  | '+' :: r => (parseDigits r).map (fun n => (n : Int))
  | '-' :: r => (parseDigits r).map (fun n => -(n : Int))
  | r => (parseDigits r).map (fun n => (n : Int))

/-- Python `int(float(s))` on a string: parse an optional sign, an integer
digit group and an optional fractional digit group, then truncate toward
zero (so the result is the signed integer part). -/
def pyFloatTruncOfString (s : String) : Option Int :=
  let body : List Char → Option Nat := fun l =>
    let ip := l.takeWhile Char.isDigit
    match l.dropWhile Char.isDigit with
    | [] => if ip ≠ [] then some (digitsToNat ip) else none
    | '.' :: frac =>
        if frac.all Char.isDigit ∧ (ip ≠ [] ∨ frac ≠ []) then
          some (digitsToNat ip)
        else none
    | _ => none
  match stripList isPySpace s.data with
  | '+' :: r => (body r).map (fun n => (n : Int))
  | '-' :: r => (body r).map (fun n => -(n : Int))
  | r => (body r).map (fun n => (n : Int))

/-- clean.py `to_int`: `None`/blank input gives `None`; otherwise
`int(float(str(x).strip()))`, with any parse failure giving `None`. -/
def to_int (x : PyVal) : Option Int :=
  match x with
  | .vnone => none
  | x =>
      let s := pyStrip (pyStr x)
      if s = "" then none else pyFloatTruncOfString s

/-- app.py `to_int_or_none`: `None` gives `None`; an integer is returned as
is; a string goes through Python `int(s)`; failure gives `None`. -/
def to_int_or_none (x : PyVal) : Option Int :=
  match x with
  | .vnone => none
  | .vi n => some n
  | .vs s => pyIntOfString s

/-- clean.py `to_bool01_fr`: French/English boolean tokens to 0/1, anything
else (including blank) to `None`. -/
def to_bool01_fr (x : PyVal) : Option Int :=
  match x with
  | .vnone => none
  | x =>
      let s := pyLower (pyStrip (pyStr x))
      if s = "" then none
      else if s = "oui" ∨ s = "true" ∨ s = "1" ∨ s = "vrai" then some 1
      else if s = "non" ∨ s = "false" ∨ s = "0" ∨ s = "faux" then some 0
      else none

/-- Value of one field of a cleaned record as it is serialized (JSON / CSV):
null, string, or integer. -/
inductive JVal where
  | null : JVal
  | js (s : String) : JVal
  | ji (n : Int) : JVal
deriving DecidableEq, Repr

/-- Injection of an optional string (a `dict.get` result) into `JVal`. -/
def jOfOpt : Option String → JVal
  | none => .null
  | some s => .js s

/-- Injection of an optional integer into `JVal`. -/
def jOfInt : Option Int → JVal
  | none => .null
  | some n => .ji n

/-- Injection of a `dict.get` result into `PyVal` (Python conflates an absent
key and a stored `None` through `.get`). -/
def optToVal : Option String → PyVal
  | none => .vnone
  | some s => .vs s

/-- Python `str(x)` where `x` is an optional string. -/
def pyStrOpt : Option String → String
  | none => "None"
  | some s => s

/-- Truthiness of an optional string (`None` and `""` are falsy). -/
def truthyS : Option String → Bool
  | none => false
  | some s => s ≠ ""

/-- Python `x or y` on optional strings. -/
def pyOrS (a b : Option String) : Option String := if truthyS a then a else b

/-- `csv.DictReader` pairing of the header row with one data row: a missing
cell is `none` (the reader's `restval`), cells beyond the headers are
dropped (they land under the `None` key, which `clean.py` skips). -/
def rowPairs : List String → List String → List (String × Option String)
  | [], _ => []
  | h :: hs, [] => (h, none) :: rowPairs hs []
  | h :: hs, c :: cs => (h, some c) :: rowPairs hs cs

/-- clean.py per-row dictionary lookup `r.get(key)`: the row dictionary maps
`norm` of each header to the stripped cell value; a repeated (normalized)
header keeps the last value, as Python dict assignment does. -/
def rGet (headers cells : List String) (key : String) : Option String :=
  match ((rowPairs headers cells).filter (fun p => norm p.1 = key)).getLast? with
  | none => none
  | some p => p.2.map pyStrip

/-- Resolved `station_code` of a raw row (`r.get("identifiant_station")`). -/
def rowStation (headers cells : List String) : Option String :=
  rGet headers cells "identifiant_station"

/-- Resolved `due_date` of a raw row (accented alias first, then plain). -/
def rowDue (headers cells : List String) : Option String :=
  pyOrS (rGet headers cells "actualisation_de_la_donnée")
        (rGet headers cells "actualisation_de_la_donnee")

/-- The thirteen canonical field names of a cleaned record, in the order in
which `clean.py` builds the `out` dictionary. -/
def canonicalFields : List String :=
  ["station_code", "name", "is_installed", "capacity", "numdocksavailable",
   "numbikesavailable", "mechanical", "ebike", "is_returning", "due_date",
   "commune", "code_insee", "geo"]

/-- clean.py `main` loop body for one data row: build the normalized row
dictionary, admit the row only when `station_code` and `due_date` are
truthy, and construct the canonical `out` record. -/
def cleanRow (headers cells : List String) : Option (List (String × JVal)) :=
  let g := rGet headers cells
  let station_code := rowStation headers cells
  let station_name := g "nom_station"
  let due_date := rowDue headers cells
  if truthyS station_code && truthyS due_date then
    some [
      ("station_code", .js (pyStrip (pyStrOpt station_code))),
      ("name", jOfOpt station_name),
      ("is_installed", jOfInt (to_bool01_fr (optToVal (g "station_en_fonctionnement")))),
      ("capacity", jOfInt (to_int (optToVal
          (pyOrS (g "capacité_de_la_station") (g "capacite_de_la_station"))))),
      ("numdocksavailable", jOfInt (to_int (optToVal (g "nombre_bornettes_libres")))),
      ("numbikesavailable", jOfInt (to_int (optToVal
          (pyOrS (g "nombre_total_vélos_disponibles") (g "nombre_total_velos_disponibles"))))),
      ("mechanical", jOfInt (to_int (optToVal
          (pyOrS (g "vélos_mécaniques_disponibles") (g "velos_mecaniques_disponibles"))))),
      ("ebike", jOfInt (to_int (optToVal
          (pyOrS (g "vélos_électriques_disponibles") (g "velos_electriques_disponibles"))))),
      ("is_returning", jOfInt (to_bool01_fr (optToVal
          (pyOrS (g "retour_vélib_possible") (g "retour_velib_possible"))))),
      ("due_date", .js (pyStrip (pyStrOpt due_date))),
      ("commune", jOfOpt (pyOrS (g "nom_communes_équipées") (g "nom_communes_equipees"))),
      ("code_insee", jOfOpt (pyOrS (g "code_insee_communes_équipées") (g "code_insee_communes_equipees"))),
      ("geo", jOfOpt (pyOrS (g "coordonnées_géographiques") (g "coordonnees_geographiques")))
    ]
  else none

/-- clean.py `main` over all data rows: the list of cleaned records. -/
def cleanedRows (headers : List String) (rows : List (List String)) :
    List (List (String × JVal)) :=
  rows.filterMap (cleanRow headers)

/-- A decoded Kafka message payload: a JSON object, i.e. a finite map from
string keys to scalar values (first binding wins, keys are unique in a
Python dict). -/
def Msg : Type := List (String × PyVal)

/-- Python `msg.get(k)`: the stored value, or `None` when the key is absent. -/
def msgGet (m : Msg) (k : String) : PyVal :=
  match List.lookup k m with
  | some v => v
  | none => .vnone

/-- app.py station-code resolution: `msg.get("station_code") or
msg.get("stationcode") or msg.get("stationCode") or ""`. -/
def resolveStation (m : Msg) : PyVal :=
  pyOr (msgGet m "station_code")
    (pyOr (msgGet m "stationcode") (pyOr (msgGet m "stationCode") (.vs "")))

/-- app.py due-date resolution: `msg.get("due_date") or msg.get("duedate")
or msg.get("last_reported")`. -/
def resolveDue (m : Msg) : PyVal :=
  pyOr (msgGet m "due_date") (pyOr (msgGet m "duedate") (msgGet m "last_reported"))

/-- app.py station-name resolution. -/
def resolveName (m : Msg) : PyVal :=
  pyOr (msgGet m "name") (msgGet m "station_name")

/-- app.py commune resolution. -/
def resolveCommune (m : Msg) : PyVal :=
  pyOr (msgGet m "nom_arrondissement_communes") (msgGet m "commune")

/-- app.py docks-available resolution. -/
def resolveDocks (m : Msg) : PyVal :=
  pyOr (msgGet m "numdocksavailable") (msgGet m "docks_available")

/-- app.py bikes-available resolution. -/
def resolveBikes (m : Msg) : PyVal :=
  pyOr (msgGet m "numbikesavailable") (msgGet m "bikes_available")

/-- app.py mechanical-bikes resolution. -/
def resolveMechanical (m : Msg) : PyVal :=
  pyOr (msgGet m "mechanical") (msgGet m "bikes_mechanical")

/-- app.py e-bike resolution. -/
def resolveEbike (m : Msg) : PyVal :=
  pyOr (msgGet m "ebike") (msgGet m "bikes_ebike")

/-- app.py code-insee resolution: three aliases then `""`. -/
def resolveInsee (m : Msg) : PyVal :=
  pyOr (msgGet m "code_insee")
    (pyOr (msgGet m "codeinsee") (pyOr (msgGet m "code-insee") (.vs "")))

/-- app.py geo resolution: `msg.get("geo") or ""`. -/
def resolveGeo (m : Msg) : PyVal :=
  pyOr (msgGet m "geo") (.vs "")

/-- A timezone-naive wall-clock datetime, as stored in the MySQL DATETIME
column. -/
structure DT where
  year : Nat
  month : Nat
  day : Nat
  hour : Nat
  minute : Nat
  second : Nat
deriving DecidableEq, Repr

/-- Consume two decimal digits. -/
def take2d : List Char → Option (Nat × List Char)
  | a :: b :: r =>
      if a.isDigit && b.isDigit then
        some ((a.toNat - 48) * 10 + (b.toNat - 48), r)
      else none
  | _ => none

/-- Consume one decimal digit. -/
def take1d : List Char → Option (Nat × List Char)
  | a :: r => if a.isDigit then some (a.toNat - 48, r) else none
  | _ => none

/-- Consume four decimal digits. -/
def take4d (cs : List Char) : Option (Nat × List Char) := do
  let (a, r1) ← take2d cs
  let (b, r2) ← take2d r1
  pure (a * 100 + b, r2)

/-- Consume one literal character. -/
def lit (c : Char) : List Char → Option (List Char)
  | x :: r => if x = c then some r else none
  | [] => none

/-- UTC-offset suffix of an ISO time string: sign, `HH:MM`, optional `:SS`;
the result is the signed offset in seconds.  (Python builds a `timezone`
from the parsed components; the offset is discarded by `parse_due_date`, and
the claims only ever use the `+00:00` offset.) -/
def parseOffset (cs : List Char) : Option Int :=
  match cs with
  | sgn :: r0 =>
      if sgn = '+' ∨ sgn = '-' then do
        let (oh, r1) ← take2d r0
        guard (oh ≤ 23)
        match r1 with
        | ':' :: r2 => do
            let (om, r3) ← take2d r2
            guard (om ≤ 59)
            let base : Int := (oh : Int) * 3600 + (om : Int) * 60
            match r3 with
            | [] => pure (if sgn = '-' then -base else base)
            | ':' :: r4 => do
                let (os, r5) ← take2d r4
                guard (os ≤ 59)
                guard (r5 = [])
                let tot : Int := base + (os : Int)
                pure (if sgn = '-' then -tot else tot)
            | _ => none
        | _ => none
      else none
  | [] => none

/-- Time-of-day part of an ISO string: `HH[:MM[:SS]]` followed by an
optional offset; fractional seconds are not modelled (no claim uses them). -/
def parseTimeOff (cs : List Char) : Option (Nat × Nat × Nat × Option Int) := do
  let (h, r1) ← take2d cs
  guard (h ≤ 23)
  match r1 with
  | [] => pure (h, 0, 0, none)
  | ':' :: r2 => do
      let (m, r3) ← take2d r2
      guard (m ≤ 59)
      match r3 with
      | [] => pure (h, m, 0, none)
      | ':' :: r4 => do
          let (s, r5) ← take2d r4
          guard (s ≤ 59)
          match r5 with
          | [] => pure (h, m, s, none)
          | _ => do
              let off ← parseOffset r5
              pure (h, m, s, some off)
      | _ => do
          let off ← parseOffset r3
          pure (h, m, 0, some off)
  | _ => do
      let off ← parseOffset r1
      pure (h, 0, 0, some off)

/-- Python `datetime.fromisoformat` (the pre-3.11 grammar, which is what the
consumer's comment assumes): `YYYY-MM-DD`, then optionally any single
separator character, a time of day, and an optional UTC offset.  Day
validation is simplified to `1..31` (no claim involves a day/month
mismatch). -/
def pyFromIso (s : String) : Option (DT × Option Int) := do
  let (y, r1) ← take4d s.data
  guard (1 ≤ y)
  match r1 with
  | '-' :: r2 => do
      let (mo, r3) ← take2d r2
      guard (1 ≤ mo ∧ mo ≤ 12)
      match r3 with
      | '-' :: r4 => do
          let (d, r5) ← take2d r4
          guard (1 ≤ d ∧ d ≤ 31)
          match r5 with
          | [] => pure (⟨y, mo, d, 0, 0, 0⟩, none)
          | _sep :: tr => do
              let (h, mi, sec, off) ← parseTimeOff tr
              pure (⟨y, mo, d, h, mi, sec⟩, off)
      | _ => none
  | _ => none

/-- One numeric field of a `strptime` format: try two digits, else one, with
the value confined to `lo..hi` (mirroring the `_strptime` regular
expression with backtracking). -/
def t2 (lo hi : Nat) (cs : List Char) (k : Nat → List Char → Option DT) :
    Option DT :=
  (do
    let (n, r) ← take2d cs
    if lo ≤ n ∧ n ≤ hi then k n r else none) <|>
  (do
    let (n, r) ← take1d cs
    if lo ≤ n ∧ n ≤ hi then k n r else none)

/-- Python `datetime.strptime(s, "%Y-%m-%d %H:%M:%S")` (whole-string match;
day validation simplified to `1..31`). -/
def pyStrptimeS (s : String) : Option DT := do
  let (y, r1) ← take4d s.data
  guard (1 ≤ y)
  let r2 ← lit '-' r1
  t2 1 12 r2 (fun mo r3 => do
    let r4 ← lit '-' r3
    t2 1 31 r4 (fun d r5 => do
      let r6 ← lit ' ' r5
      t2 0 23 r6 (fun h r7 => do
        let r8 ← lit ':' r7
        t2 0 59 r8 (fun mi r9 => do
          let r10 ← lit ':' r9
          t2 0 59 r10 (fun sec r11 => do
            guard (r11 = [])
            pure ⟨y, mo, d, h, mi, sec⟩)))))

/-- Python `datetime.strptime(s, "%Y-%m-%d %H:%M")`. -/
def pyStrptimeM (s : String) : Option DT := do
  let (y, r1) ← take4d s.data
  guard (1 ≤ y)
  let r2 ← lit '-' r1
  t2 1 12 r2 (fun mo r3 => do
    let r4 ← lit '-' r3
    t2 1 31 r4 (fun d r5 => do
      let r6 ← lit ' ' r5
      t2 0 23 r6 (fun h r7 => do
        let r8 ← lit ':' r7
        t2 0 59 r8 (fun mi r9 => do
          guard (r9 = [])
          pure ⟨y, mo, d, h, mi, 0⟩))))

/-- Python `s.replace("Z", "+00:00")`: every occurrence of `Z` is expanded. -/
def pyReplaceZ (s : String) : String :=
  ⟨s.data.foldr
      (fun c acc => (if c = 'Z' then ['+', '0', '0', ':', '0', '0'] else [c]) ++ acc)
      []⟩

/-- app.py `parse_due_date`: `None` for a missing value; otherwise strip,
replace `Z`, then try `fromisoformat` (any parsed offset dropped via
`dt.replace(tzinfo=None)`), then the two space-separated formats. -/
def parse_due_date (x : PyVal) : Option DT :=
  match x with
  | .vnone => none
  | x =>
      let s := pyReplaceZ (pyStrip (pyStr x))
      match pyFromIso s with
      | some p => some p.1
      | none =>
          match pyStrptimeS s with
          | some dt => some dt
          | none => pyStrptimeM s

/-- One row of the `velib_status` table (columns of `ensure_table`). -/
structure VRow where
  station_code : String
  station_name : PyVal
  commune : PyVal
  capacity : Option Int
  docks_available : Option Int
  bikes_available : Option Int
  bikes_mechanical : Option Int
  bikes_ebike : Option Int
  is_installed : Option Int
  is_returning : Option Int
  due_date : DT
  code_insee : String
  geo : String
deriving DecidableEq, Repr

/-- The composite primary key `(station_code, due_date)` of a row. -/
def rowKey (r : VRow) : String × DT := (r.station_code, r.due_date)

/-- `ON DUPLICATE KEY UPDATE` applied to one existing row: every non-key
column takes the newly received value, the key columns stay. -/
def updRow (old new : VRow) : VRow :=
  { new with station_code := old.station_code, due_date := old.due_date }

/-- Whether the table holds a row with the given key. -/
def hasKey (db : List VRow) (k : String × DT) : Bool :=
  db.any (fun q => decide (rowKey q = k))

/-- The insert-or-update statement of `insert_row`: insert the row if its
key is new, otherwise update the non-key columns of the keyed row. -/
def velibUpsert (db : List VRow) (r : VRow) : List VRow :=
  if hasKey db (rowKey r) then
    db.map (fun q => if rowKey q = rowKey r then updRow q r else q)
  else db ++ [r]

/-- app.py `insert_row`: resolve and validate the fields of one message,
then execute the upsert; a validation failure raises (modelled as
`Except.error` carrying the exception message) before any SQL runs. -/
def insert_row (db : List VRow) (m : Msg) : Except String (List VRow) :=
  let sc := pyStrip (pyStr (resolveStation m))
  if sc = "" then .error "station_code manquant"
  else
    match parse_due_date (resolveDue m) with
    | none => .error "due_date/duedate manquant ou illisible"
    | some dd =>
        let ci := pyStrip (pyStr (resolveInsee m))
        if ci = "" then .error "code_insee manquant"
        else
          let g := pyStrip (pyStr (resolveGeo m))
          if g = "" then .error "geo manquant"
          else
            .ok (velibUpsert db
              { station_code := sc
                station_name := resolveName m
                commune := resolveCommune m
                capacity := to_int_or_none (msgGet m "capacity")
                docks_available := to_int_or_none (resolveDocks m)
                bikes_available := to_int_or_none (resolveBikes m)
                bikes_mechanical := to_int_or_none (resolveMechanical m)
                bikes_ebike := to_int_or_none (resolveEbike m)
                is_installed := to_int_or_none (msgGet m "is_installed")
                is_returning := to_int_or_none (msgGet m "is_returning")
                due_date := dd
                code_insee := ci
                geo := g })

/-- Whether an `Except` result is a success. -/
def exOk {ε α : Type} : Except ε α → Bool
  | .ok _ => true
  | .error _ => false

instance {ε α : Type} [DecidableEq ε] [DecidableEq α] :
    DecidableEq (Except ε α) := fun x y =>
  match x, y with
  | .ok a, .ok b =>
      if h : a = b then isTrue (by rw [h]) else isFalse (by simp [h])
  | .error a, .error b =>
      if h : a = b then isTrue (by rw [h]) else isFalse (by simp [h])
  | .ok _, .error _ => isFalse (by simp)
  | .error _, .ok _ => isFalse (by simp)

/-- The value carried by one Kafka record: either a decodable JSON-object
payload or a value on which `json.loads` (or the subsequent attribute
access) raises. -/
inductive RawValue where
  | payload (m : Msg) : RawValue
  | undecodable : RawValue

/-- One Kafka record: its offset (stream position) and its value. -/
structure KRecord where
  offset : Nat
  value : RawValue

/-- `json.loads(record.value)` plus the requirement that the result is a
dict: a structured payload decodes, anything else raises. -/
def decodeValue : RawValue → Except String Msg
  | .payload m => .ok m
  | .undecodable => .error "json decode error"

/-- Result of one iteration of the consumer loop: the table contents, the
checkpoint (last explicitly committed offset), whether `consumer.commit()`
was called for this record, and the error log entry (offset and message)
when the iteration failed. -/
structure StepRes where
  db : List VRow
  committed : Option Nat
  didCommit : Bool
  logged : Option (Nat × String)

/-- One iteration of the consumer's steady-state loop (`for record in
consumer`): decode, map and upsert, and commit the offset only on success;
`storeOk` is false when the store raises on the write (a transient store
error), in which case the transaction leaves the table unchanged. -/
def consumeStep (storeOk : Bool) (db : List VRow) (committed : Option Nat)
    (rec : KRecord) : StepRes :=
  match decodeValue rec.value with
  | .error e => ⟨db, committed, false, some (rec.offset, e)⟩
  | .ok m =>
      match insert_row db m with
      | .error e => ⟨db, committed, false, some (rec.offset, e)⟩
      | .ok db2 =>
          if storeOk then ⟨db2, some rec.offset, true, none⟩
          else ⟨db, committed, false, some (rec.offset, "mysql error")⟩

/-- The consumer loop over a finite prefix of the stream; each record comes
with the store's availability for that iteration. -/
def consumeAll (st : List VRow × Option Nat) (l : List (Bool × KRecord)) :
    List VRow × Option Nat :=
  l.foldl (fun st p =>
    let r := consumeStep p.1 st.1 st.2 p.2
    (r.db, r.committed)) st

/-- First record of the C2 witness: key `("101", 2026-01-22 10:00:00)`. -/
def r1w : VRow :=
  { station_code := "101", station_name := .vnone, commune := .vnone,
    capacity := none, docks_available := none, bikes_available := none,
    bikes_mechanical := none, bikes_ebike := none, is_installed := none,
    is_returning := none, due_date := ⟨2026, 1, 22, 10, 0, 0⟩,
    code_insee := "75056", geo := "g1" }

/-- Second record of the C2 witness: same key, different payload. -/
def r2w : VRow :=
  { r1w with station_name := .vs "Gare", capacity := some 20, geo := "g2" }

/-- Message for the C4 counterexample: the first docks alias present with the
non-null value `0`. -/
def msgDocks : Msg :=
  [("stationcode", .vs "101"), ("duedate", .vs "2026-01-22 10:00:00"),
   ("code_insee", .vs "75056"), ("geo", .vs "48.85,2.35"),
   ("numdocksavailable", .vi 0), ("docks_available", .vi 5)]

/-- Message of the C6 witness: the spec §8 scenario message that lacks
`geo`. -/
def msgNoGeo : Msg :=
  [("stationcode", .vs "101"), ("duedate", .vs "2026-01-22T10:00:00Z"),
   ("code_insee", .vs "75056")]

/-- Message of the C1 witness. -/
def msgOkC1 : Msg :=
  [("station_code", .vs "101"), ("due_date", .vs "2026-01-22 10:00:00"),
   ("code_insee", .vs "75056"), ("geo", .vs "48.85,2.35")]

/-! Helper lemmas about stripping, association-list rows, and the keyed
table. -/

theorem dropWhile_dropWhile (p : Char → Bool) (l : List Char) :
    (l.dropWhile p).dropWhile p = l.dropWhile p := by
  induction l with
  | nil => rfl
  | cons h t ih =>
      by_cases hp : p h
      · simp only [List.dropWhile_cons, hp, if_true]
        exact ih
      · simp only [List.dropWhile_cons, hp, if_false, Bool.false_eq_true]

theorem head_dropWhile_false (p : Char → Bool) (l : List Char) :
    ∀ a t, l.dropWhile p = a :: t → p a = false := by
  induction l with
  | nil => intro a t h; simp at h
  | cons x xs ih =>
      intro a t h
      by_cases hp : p x
      · rw [List.dropWhile_cons, if_pos hp] at h
        exact ih a t h
      · rw [List.dropWhile_cons, if_neg hp] at h
        injection h with h1 _
        subst h1
        simpa using hp

theorem dropWhile_eq_self_of_head (p : Char → Bool) (l : List Char)
    (h : ∀ a t, l = a :: t → p a = false) : l.dropWhile p = l := by
  cases l with
  | nil => rfl
  | cons a t =>
      rw [List.dropWhile_cons, if_neg]
      simp [h a t rfl]

theorem dropWhile_eq_append (p : Char → Bool) (l : List Char) :
    ∃ t0, t0 ++ l.dropWhile p = l := by
  induction l with
  | nil => exact ⟨[], rfl⟩
  | cons a t ih =>
      by_cases hp : p a
      · obtain ⟨t0, h⟩ := ih
        exact ⟨a :: t0, by rw [List.cons_append, List.dropWhile_cons, if_pos hp, h]⟩
      · exact ⟨[], by rw [List.nil_append, List.dropWhile_cons, if_neg hp]⟩

theorem stripList_idem (p : Char → Bool) (l : List Char) :
    stripList p (stripList p l) = stripList p l := by
  have h1 : ((l.dropWhile p).reverse.dropWhile p).reverse.dropWhile p =
      ((l.dropWhile p).reverse.dropWhile p).reverse := by
    apply dropWhile_eq_self_of_head
    intro a t hrev
    obtain ⟨t0, ht0⟩ := dropWhile_eq_append p (l.dropWhile p).reverse
    have hA : l.dropWhile p =
        ((l.dropWhile p).reverse.dropWhile p).reverse ++ t0.reverse := by
      have hrv := congrArg List.reverse ht0
      rw [List.reverse_reverse, List.reverse_append] at hrv
      exact hrv.symm
    rw [hrev] at hA
    exact head_dropWhile_false p l a (t ++ t0.reverse) (by rw [hA]; rfl)
  unfold stripList
  rw [h1, List.reverse_reverse, dropWhile_dropWhile]

theorem pyStrip_idem (s : String) : pyStrip (pyStrip s) = pyStrip s := by
  unfold pyStrip
  exact congrArg String.mk (stripList_idem _ _)

theorem rGet_fix (headers cells : List String) (k v : String)
    (h : rGet headers cells k = some v) : pyStrip v = v := by
  unfold rGet at h
  cases hg : ((rowPairs headers cells).filter (fun p => norm p.1 = k)).getLast? with
  | none => rw [hg] at h; exact absurd h (by simp)
  | some p =>
      rw [hg] at h
      obtain ⟨p1, p2⟩ := p
      cases p2 with
      | none => simp at h
      | some raw =>
          simp at h
          rw [← h]
          exact pyStrip_idem raw

theorem pyOrS_cases (a b : Option String) : pyOrS a b = a ∨ pyOrS a b = b := by
  unfold pyOrS
  by_cases h : truthyS a = true
  · left; rw [if_pos h]
  · right; rw [if_neg h]

theorem rowDue_fix (headers cells : List String) (v : String)
    (h : rowDue headers cells = some v) : pyStrip v = v := by
  unfold rowDue at h
  rcases pyOrS_cases (rGet headers cells "actualisation_de_la_donnée")
      (rGet headers cells "actualisation_de_la_donnee") with hc | hc <;>
    rw [hc] at h
  · exact rGet_fix _ _ _ _ h
  · exact rGet_fix _ _ _ _ h

theorem rowPairs_append (headers cells extra : List String)
    (h : headers.length ≤ cells.length) :
    rowPairs headers (cells ++ extra) = rowPairs headers cells := by
  induction headers generalizing cells with
  | nil => rfl
  | cons hh ht ih =>
      cases cells with
      | nil => simp at h
      | cons c cs =>
          simp only [List.cons_append, rowPairs, List.append_eq]
          rw [ih cs (by simpa using h)]

/-- The primary-key invariant of the `velib_status` table: no two rows share
a `(station_code, due_date)` key. -/
def keyPW (db : List VRow) : Prop :=
  db.Pairwise (fun a b => rowKey a ≠ rowKey b)

/-- Number of stored rows carrying the given key. -/
def keyCount (db : List VRow) (k : String × DT) : Nat :=
  (db.filter (fun q => decide (rowKey q = k))).length

theorem updRow_key (q r : VRow) : rowKey (updRow q r) = rowKey q := rfl

theorem updRow_self (q r : VRow) (h : rowKey q = rowKey r) : updRow q r = r := by
  cases q; cases r
  simp only [rowKey, Prod.mk.injEq] at h
  simp [updRow, h.1, h.2]

theorem hasKey_iff (db : List VRow) (k : String × DT) :
    hasKey db k = true ↔ ∃ q ∈ db, rowKey q = k := by
  simp [hasKey, List.any_eq_true]

theorem filter_key_nil (db : List VRow) (k : String × DT)
    (h : ∀ q ∈ db, rowKey q ≠ k) :
    db.filter (fun q => decide (rowKey q = k)) = [] := by
  induction db with
  | nil => rfl
  | cons a t ih =>
      rw [List.filter_cons, if_neg (by simp [h a (List.mem_cons_self a t)])]
      exact ih (fun q hq => h q (List.mem_cons_of_mem a hq))

theorem keyCount_one_of_mem (db : List VRow) (k : String × DT)
    (pw : keyPW db) (h : ∃ q ∈ db, rowKey q = k) : keyCount db k = 1 := by
  induction db with
  | nil => simp at h
  | cons a t ih =>
      rw [keyPW, List.pairwise_cons] at pw
      obtain ⟨ha, hpt⟩ := pw
      by_cases hk : rowKey a = k
      · have ht : t.filter (fun q => decide (rowKey q = k)) = [] := by
          apply filter_key_nil
          intro q hq hc
          exact ha q hq (by rw [hk, ← hc])
        simp [keyCount, List.filter_cons, hk, ht]
      · obtain ⟨q, hq, hqk⟩ := h
        rcases List.mem_cons.mp hq with rfl | hqt
        · exact absurd hqk hk
        · have := ih hpt ⟨q, hqt, hqk⟩
          simpa [keyCount, List.filter_cons, hk] using this

theorem exists_of_keyCount_one (db : List VRow) (k : String × DT)
    (h : keyCount db k = 1) : ∃ q ∈ db, rowKey q = k := by
  unfold keyCount at h
  cases hf : db.filter (fun q => decide (rowKey q = k)) with
  | nil => rw [hf] at h; simp at h
  | cons q t =>
      have hq : q ∈ db.filter (fun q => decide (rowKey q = k)) := by
        rw [hf]; exact List.mem_cons_self q t
      have := List.mem_filter.mp hq
      exact ⟨q, this.1, by simpa using this.2⟩

/-- Effect and invariant preservation of one upsert: afterwards the table
holds exactly one row keyed `rowKey r`, that row is `r` itself, and the
key invariant still holds. -/
theorem velibUpsert_spec (db : List VRow) (r : VRow) (pw : keyPW db) :
    keyCount (velibUpsert db r) (rowKey r) = 1 ∧
    (∀ q ∈ velibUpsert db r, rowKey q = rowKey r → q = r) ∧
    keyPW (velibUpsert db r) := by
  by_cases hk : hasKey db (rowKey r) = true
  · rw [velibUpsert, if_pos hk]
    have hmapkey : ∀ q : VRow,
        rowKey (if rowKey q = rowKey r then updRow q r else q) = rowKey q := by
      intro q
      by_cases hq : rowKey q = rowKey r
      · rw [if_pos hq, updRow_key]
      · rw [if_neg hq]
    refine ⟨?_, ?_, ?_⟩
    · rw [keyCount, List.filter_map]
      rw [List.length_map]
      have : (fun q => decide (rowKey q = rowKey r)) ∘
          (fun q => if rowKey q = rowKey r then updRow q r else q) =
          fun q => decide (rowKey q = rowKey r) := by
        funext q
        simp [Function.comp, hmapkey q]
      rw [this]
      exact keyCount_one_of_mem db (rowKey r) pw ((hasKey_iff db (rowKey r)).mp hk)
    · intro q hq hqk
      obtain ⟨p, _, hpq⟩ := List.mem_map.mp hq
      by_cases hp : rowKey p = rowKey r
      · rw [← hpq, if_pos hp]
        exact updRow_self p r hp
      · rw [← hpq, if_neg hp] at hqk ⊢
        exact absurd hqk hp
    · rw [keyPW]
      apply List.Pairwise.map
      · intro a b hab
        rw [hmapkey a, hmapkey b]
        exact hab
      · exact pw
  · rw [velibUpsert, if_neg hk]
    have hnone : ∀ q ∈ db, rowKey q ≠ rowKey r := by
      intro q hq hc
      exact hk ((hasKey_iff db (rowKey r)).mpr ⟨q, hq, hc⟩)
    refine ⟨?_, ?_, ?_⟩
    · rw [keyCount, List.filter_append, filter_key_nil db (rowKey r) hnone]
      simp
    · intro q hq hqk
      rcases List.mem_append.mp hq with hq1 | hq2
      · exact absurd hqk (hnone q hq1)
      · simpa using hq2
    · rw [keyPW, List.pairwise_append]
      refine ⟨pw, by simp, ?_⟩
      intro a ha b hb
      have hb1 : b = r := by simpa using hb
      rw [hb1]
      exact hnone a ha

theorem map_eq_self_of_mem {α : Type} (f : α → α) (l : List α)
    (h : ∀ a ∈ l, f a = a) : l.map f = l := by
  induction l with
  | nil => rfl
  | cons a t ih =>
      rw [List.map_cons, h a (List.mem_cons_self a t),
        ih (fun b hb => h b (List.mem_cons_of_mem a hb))]

/-- C2: upserting two records with the same `(station_code, due_date)` key
leaves exactly one stored row for that key, that row equals the second
record entirely (full overwrite of every non-key field, not a merge of
nulls), and re-applying the second record leaves the table unchanged. -/
theorem claim_C2_upsert_idempotent_lww (db : List VRow) (r1 r2 : VRow)
    (hkey : rowKey r1 = rowKey r2) (pw : keyPW db) :
    keyCount (velibUpsert (velibUpsert db r1) r2) (rowKey r2) = 1 ∧
    (∀ q ∈ velibUpsert (velibUpsert db r1) r2, rowKey q = rowKey r2 → q = r2) ∧
    velibUpsert (velibUpsert (velibUpsert db r1) r2) r2 =
      velibUpsert (velibUpsert db r1) r2 := by
  have s1 := velibUpsert_spec db r1 pw
  have s2 := velibUpsert_spec (velibUpsert db r1) r2 s1.2.2
  refine ⟨s2.1, s2.2.1, ?_⟩
  have hhk : hasKey (velibUpsert (velibUpsert db r1) r2) (rowKey r2) = true :=
    (hasKey_iff _ _).mpr (exists_of_keyCount_one _ _ s2.1)
  rw [velibUpsert, if_pos hhk]
  apply map_eq_self_of_mem
  intro q hq
  by_cases h : rowKey q = rowKey r2
  · rw [if_pos h, updRow_self q r2 h]
    exact (s2.2.1 q hq h).symm
  · rw [if_neg h]

/-- Witness for C2 at a concrete pair of same-key records over the empty
table. -/
theorem claim_C2_witness :
    keyCount (velibUpsert (velibUpsert [] r1w) r2w) (rowKey r2w) = 1 ∧
    velibUpsert (velibUpsert (velibUpsert [] r1w) r2w) r2w =
      velibUpsert (velibUpsert [] r1w) r2w := by
  have h := claim_C2_upsert_idempotent_lww [] r1w r2w (by decide)
    (by rw [keyPW]; exact List.Pairwise.nil)
  exact ⟨h.1, h.2.2⟩

/-- C9: the spec scenario row is admitted by the Normalizer and produces the
canonical record with `station_code="101"`, `capacity=20`,
`is_installed=1` and `due_date` kept as the raw string. -/
theorem claim_C9_scenario :
    cleanRow
      ["Nom Station", "Identifiant station", "Capacité de la Station",
       "Station en fonctionnement", "Actualisation de la donnée"]
      ["Gare", "101", "20.0", "OUI", "2026-01-22 10:00:00"] =
    some [("station_code", .js "101"), ("name", .js "Gare"),
          ("is_installed", .ji 1), ("capacity", .ji 20),
          ("numdocksavailable", .null), ("numbikesavailable", .null),
          ("mechanical", .null), ("ebike", .null), ("is_returning", .null),
          ("due_date", .js "2026-01-22 10:00:00"), ("commune", .null),
          ("code_insee", .null), ("geo", .null)] := by decide

/-- C10: every record emitted by the Normalizer carries exactly the thirteen
canonical fields in the fixed construction order, so the tabular header
taken from the first record matches every record. -/
theorem claim_C10_fixed_fields (headers : List String)
    (rows : List (List String)) (rec : List (String × JVal))
    (h : rec ∈ cleanedRows headers rows) :
    rec.map Prod.fst = canonicalFields := by
  unfold cleanedRows at h
  obtain ⟨cells, _, hc⟩ := List.mem_filterMap.mp h
  simp only [cleanRow] at hc
  by_cases hb : (truthyS (rowStation headers cells) &&
      truthyS (rowDue headers cells)) = true
  · rw [if_pos hb] at hc
    injection hc with hc
    rw [← hc]
    rfl
  · rw [if_neg hb] at hc
    exact absurd hc (by simp)

/-- Witness for C10 at a concrete accepted row. -/
theorem claim_C10_witness :
    [("station_code", JVal.js "104"), ("name", JVal.null),
     ("is_installed", JVal.null), ("capacity", JVal.null),
     ("numdocksavailable", JVal.null), ("numbikesavailable", JVal.null),
     ("mechanical", JVal.null), ("ebike", JVal.null),
     ("is_returning", JVal.null), ("due_date", JVal.js "2026-03-01 07:00"),
     ("commune", JVal.null), ("code_insee", JVal.null),
     ("geo", JVal.null)].map Prod.fst = canonicalFields := by
  apply claim_C10_fixed_fields ["Identifiant station", "Actualisation de la donnée"]
    [["104", "2026-03-01 07:00"]]
  decide

/-- C3 counterexample: on the textual decimal `"12.0"` the Normalizer's
`to_int` truncates to `12` while the Consumer's `to_int_or_none` yields
`None`, so the two parsers are not the same function. -/
theorem claim_C3_counterexample :
    to_int (.vs "12.0") = some 12 ∧ to_int_or_none (.vs "12.0") = none ∧
    to_int_or_none (.vs "12.0") ≠ to_int (.vs "12.0") := by decide

/-- C3 as amended: both parsers return unknown (`none`) on absent and blank
input and never raise, but they differ on textual decimals: `to_int`
truncates `"12.0"` to `12` where `to_int_or_none` returns unknown. -/
theorem claim_C3_amended_parsers (x : PyVal)
    (h : x = .vnone ∨ ∃ s, x = .vs s ∧ pyStrip s = "") :
    to_int x = none ∧ to_int_or_none x = none ∧
    to_int (.vs "12.0") = some 12 ∧ to_int_or_none (.vs "12.0") = none := by
  refine ⟨?_, ?_, by decide, by decide⟩
  · rcases h with rfl | ⟨s, rfl, hs⟩
    · rfl
    · simp [to_int, pyStr, hs]
  · rcases h with rfl | ⟨s, rfl, hs⟩
    · rfl
    · have hnil : stripList isPySpace s.data = [] := by
        have := congrArg String.data hs
        simpa [pyStrip] using this
      simp [to_int_or_none, pyIntOfString, hnil, parseDigits]

/-- Witness for C3 (amended) at a whitespace-only input. -/
theorem claim_C3_witness :
    to_int (.vs "   ") = none ∧ to_int_or_none (.vs "   ") = none := by
  have h := claim_C3_amended_parsers (.vs "   ")
    (Or.inr ⟨"   ", rfl, by decide⟩)
  exact ⟨h.1, h.2.1⟩

/-- C4 counterexample: `numdocksavailable` is present with the non-null value
`0`, yet resolution returns the later alias `docks_available=5` and the
persisted row stores `5` — a present, non-null first alias is not always
selected. -/
theorem claim_C4_counterexample :
    msgGet msgDocks "numdocksavailable" = .vi 0 ∧
    msgGet msgDocks "numdocksavailable" ≠ .vnone ∧
    resolveDocks msgDocks = .vi 5 ∧
    insert_row [] msgDocks = .ok
      [{ station_code := "101", station_name := .vnone, commune := .vnone,
         capacity := none, docks_available := some 5, bikes_available := none,
         bikes_mechanical := none, bikes_ebike := none, is_installed := none,
         is_returning := none, due_date := ⟨2026, 1, 22, 10, 0, 0⟩,
         code_insee := "75056", geo := "48.85,2.35" }] := by decide

/-- C4 as amended: per canonical field, resolution takes the first alias
whose value is truthy (present, non-null and non-falsy); a present value of
`0` or `""` is skipped exactly like an absent one, falling through to the
later aliases or to the chain's default. -/
theorem claim_C4_amended_first_truthy (m : Msg) :
    (resolveStation m =
      (if pyTruthy (msgGet m "station_code") = true then msgGet m "station_code"
       else if pyTruthy (msgGet m "stationcode") = true then msgGet m "stationcode"
       else if pyTruthy (msgGet m "stationCode") = true then msgGet m "stationCode"
       else .vs "")) ∧
    (resolveDue m =
      (if pyTruthy (msgGet m "due_date") = true then msgGet m "due_date"
       else if pyTruthy (msgGet m "duedate") = true then msgGet m "duedate"
       else msgGet m "last_reported")) ∧
    (resolveName m =
      (if pyTruthy (msgGet m "name") = true then msgGet m "name"
       else msgGet m "station_name")) ∧
    (resolveCommune m =
      (if pyTruthy (msgGet m "nom_arrondissement_communes") = true then
        msgGet m "nom_arrondissement_communes"
       else msgGet m "commune")) ∧
    (resolveDocks m =
      (if pyTruthy (msgGet m "numdocksavailable") = true then
        msgGet m "numdocksavailable"
       else msgGet m "docks_available")) ∧
    (resolveBikes m =
      (if pyTruthy (msgGet m "numbikesavailable") = true then
        msgGet m "numbikesavailable"
       else msgGet m "bikes_available")) ∧
    (resolveMechanical m =
      (if pyTruthy (msgGet m "mechanical") = true then msgGet m "mechanical"
       else msgGet m "bikes_mechanical")) ∧
    (resolveEbike m =
      (if pyTruthy (msgGet m "ebike") = true then msgGet m "ebike"
       else msgGet m "bikes_ebike")) ∧
    (resolveInsee m =
      (if pyTruthy (msgGet m "code_insee") = true then msgGet m "code_insee"
       else if pyTruthy (msgGet m "codeinsee") = true then msgGet m "codeinsee"
       else if pyTruthy (msgGet m "code-insee") = true then msgGet m "code-insee"
       else .vs "")) ∧
    (resolveGeo m =
      (if pyTruthy (msgGet m "geo") = true then msgGet m "geo" else .vs "")) ∧
    (pyTruthy (msgGet m "numdocksavailable") = false →
      msgGet m "numdocksavailable" ≠ .vnone →
      resolveDocks m = msgGet m "docks_available") := by
  refine ⟨rfl, rfl, rfl, rfl, rfl, rfl, rfl, rfl, rfl, rfl, ?_⟩
  intro h _
  simp [resolveDocks, pyOr, h]

/-- Witness for C4 (amended): a present zero is skipped for the later
alias. -/
theorem claim_C4_witness :
    resolveDocks [("numdocksavailable", PyVal.vi 0), ("docks_available", PyVal.vi 7)] =
      PyVal.vi 7 := by
  have h := claim_C4_amended_first_truthy
    [("numdocksavailable", PyVal.vi 0), ("docks_available", PyVal.vi 7)]
  exact h.2.2.2.2.2.2.2.2.2.2 (by decide) (by decide)

/-- C7 counterexample: the date-only input `"2026-01-22"` has no explicit
offset and matches neither space-separated format, yet `fromisoformat`
accepts it, `parse_due_date` succeeds, and the message is persisted — where
the claim predicts an unparseable-timestamp validation error. -/
theorem claim_C7_counterexample :
    pyFromIso "2026-01-22" = some (⟨2026, 1, 22, 0, 0, 0⟩, none) ∧
    pyStrptimeS "2026-01-22" = none ∧
    pyStrptimeM "2026-01-22" = none ∧
    parse_due_date (.vs "2026-01-22") = some ⟨2026, 1, 22, 0, 0, 0⟩ ∧
    insert_row []
      [("stationcode", .vs "101"), ("duedate", .vs "2026-01-22"),
       ("code_insee", .vs "75056"), ("geo", .vs "48.85,2.35")] = .ok
      [{ station_code := "101", station_name := .vnone, commune := .vnone,
         capacity := none, docks_available := none, bikes_available := none,
         bikes_mechanical := none, bikes_ebike := none, is_installed := none,
         is_returning := none, due_date := ⟨2026, 1, 22, 0, 0, 0⟩,
         code_insee := "75056", geo := "48.85,2.35" }] := by decide

/-- C7 as amended: `parse_due_date` strips the value, replaces every `Z` by
`+00:00`, then attempts in order: ISO date-time where both the time of day
and the offset are optional (any parsed offset being discarded, so the
result is the naive wall-clock datetime); then `YYYY-MM-DD HH:MM:SS`; then
`YYYY-MM-DD HH:MM`; if all fail the value is unparseable and the message
fails with the due-date validation error, so no row is persisted. -/
theorem claim_C7_amended_order (x : PyVal) :
    (∀ dt off, pyFromIso (pyReplaceZ (pyStrip (pyStr x))) = some (dt, off) →
      parse_due_date x = some dt) ∧
    (pyFromIso (pyReplaceZ (pyStrip (pyStr x))) = none →
      ∀ dt, pyStrptimeS (pyReplaceZ (pyStrip (pyStr x))) = some dt →
        parse_due_date x = some dt) ∧
    (pyFromIso (pyReplaceZ (pyStrip (pyStr x))) = none →
      pyStrptimeS (pyReplaceZ (pyStrip (pyStr x))) = none →
      ∀ dt, pyStrptimeM (pyReplaceZ (pyStrip (pyStr x))) = some dt →
        parse_due_date x = some dt) ∧
    (pyFromIso (pyReplaceZ (pyStrip (pyStr x))) = none →
      pyStrptimeS (pyReplaceZ (pyStrip (pyStr x))) = none →
      pyStrptimeM (pyReplaceZ (pyStrip (pyStr x))) = none →
      parse_due_date x = none) ∧
    (∀ db m, parse_due_date (resolveDue m) = none →
      pyStrip (pyStr (resolveStation m)) ≠ "" →
      insert_row db m = .error "due_date/duedate manquant ou illisible") := by
  refine ⟨?_, ?_, ?_, ?_, ?_⟩
  · intro dt off hiso
    cases x with
    | vnone =>
        rw [show pyFromIso (pyReplaceZ (pyStrip (pyStr PyVal.vnone))) = none from by decide]
          at hiso
        exact absurd hiso (by simp)
    | vs s => simp [parse_due_date, hiso]
    | vi n => simp [parse_due_date, hiso]
  · intro h1 dt h2
    cases x with
    | vnone =>
        rw [show pyStrptimeS (pyReplaceZ (pyStrip (pyStr PyVal.vnone))) = none from by decide]
          at h2
        exact absurd h2 (by simp)
    | vs s => simp [parse_due_date, h1, h2]
    | vi n => simp [parse_due_date, h1, h2]
  · intro h1 h2 dt h3
    cases x with
    | vnone =>
        rw [show pyStrptimeM (pyReplaceZ (pyStrip (pyStr PyVal.vnone))) = none from by decide]
          at h3
        exact absurd h3 (by simp)
    | vs s => simp [parse_due_date, h1, h2, h3]
    | vi n => simp [parse_due_date, h1, h2, h3]
  · intro h1 h2 h3
    cases x with
    | vnone => rfl
    | vs s => simp [parse_due_date, h1, h2, h3]
    | vi n => simp [parse_due_date, h1, h2, h3]
  · intro db m hdd hsc
    simp [insert_row, hsc, hdd]

/-- Witness for C7 (amended): the ISO input with a trailing `Z` parses to
the naive wall-clock datetime. -/
theorem claim_C7_witness :
    parse_due_date (.vs "2026-01-22T10:00:00Z") = some ⟨2026, 1, 22, 10, 0, 0⟩ :=
  (claim_C7_amended_order (.vs "2026-01-22T10:00:00Z")).1
    ⟨2026, 1, 22, 10, 0, 0⟩ (some 0) (by decide)

/-- C5 counterexample: a raw CSV row carrying only the station identifier and
the timestamp is admitted by the Normalizer and emitted with `code_insee`
and `geo` null — the Normalizer does not guarantee those fields. -/
theorem claim_C5_counterexample :
    ((cleanRow ["Identifiant station", "Actualisation de la donnée"]
        ["101", "2026-01-22 10:00:00"]).bind (fun rec => List.lookup "geo" rec) =
      some JVal.null) ∧
    ((cleanRow ["Identifiant station", "Actualisation de la donnée"]
        ["101", "2026-01-22 10:00:00"]).bind
        (fun rec => List.lookup "code_insee" rec) = some JVal.null) ∧
    (cleanRow ["Identifiant station", "Actualisation de la donnée"]
        ["101", "2026-01-22 10:00:00"]).isSome = true := by decide

/-- C5 as amended: every record the Record Mapper persists has non-empty
`station_code`, `code_insee` and `geo` (and a parsed `due_date`); every
record the Normalizer emits has non-empty `station_code` and `due_date`,
but its `code_insee` and `geo` may be null. -/
theorem claim_C5_amended_required :
    (∀ headers cells rec, cleanRow headers cells = some rec →
      ∃ v w, List.lookup "station_code" rec = some (JVal.js v) ∧ v ≠ "" ∧
        List.lookup "due_date" rec = some (JVal.js w) ∧ w ≠ "") ∧
    (∀ db m db2, insert_row db m = .ok db2 →
      ∃ r, db2 = velibUpsert db r ∧ r.station_code ≠ "" ∧
        r.code_insee ≠ "" ∧ r.geo ≠ "") := by
  constructor
  · intro headers cells rec h
    simp only [cleanRow] at h
    by_cases hb : (truthyS (rowStation headers cells) &&
        truthyS (rowDue headers cells)) = true
    · rw [if_pos hb] at h
      rw [Bool.and_eq_true] at hb
      obtain ⟨h1, h2⟩ := hb
      cases hsc : rowStation headers cells with
      | none => rw [hsc] at h1; simp [truthyS] at h1
      | some s =>
          have hs : s ≠ "" := by
            rw [hsc] at h1; simpa [truthyS] using h1
          cases hdd : rowDue headers cells with
          | none => rw [hdd] at h2; simp [truthyS] at h2
          | some w0 =>
              have hw : w0 ≠ "" := by
                rw [hdd] at h2; simpa [truthyS] using h2
              rw [hsc, hdd] at h
              injection h with h
              refine ⟨pyStrip s, pyStrip w0, ?_, ?_, ?_, ?_⟩
              · rw [← h]; rfl
              · rw [rGet_fix headers cells "identifiant_station" s hsc]
                exact hs
              · rw [← h]; rfl
              · rw [rowDue_fix headers cells w0 hdd]
                exact hw
    · rw [if_neg hb] at h
      exact absurd h (by simp)
  · intro db m db2 h
    by_cases h1 : pyStrip (pyStr (resolveStation m)) = ""
    · simp [insert_row, h1] at h
    cases hdd : parse_due_date (resolveDue m) with
    | none => simp [insert_row, h1, hdd] at h
    | some dd =>
        by_cases h3 : pyStrip (pyStr (resolveInsee m)) = ""
        · simp [insert_row, h1, hdd, h3] at h
        by_cases h4 : pyStrip (pyStr (resolveGeo m)) = ""
        · simp [insert_row, h1, hdd, h3, h4] at h
        simp [insert_row, h1, hdd, h3, h4] at h
        exact ⟨_, h.symm, h1, h3, h4⟩

/-- Witness for C5 (amended) at a concrete Normalizer row and a concrete
successfully mapped message. -/
theorem claim_C5_witness :
    (∃ v w,
      List.lookup "station_code"
        [("station_code", JVal.js "103"), ("name", JVal.null),
         ("is_installed", JVal.null), ("capacity", JVal.null),
         ("numdocksavailable", JVal.null), ("numbikesavailable", JVal.null),
         ("mechanical", JVal.null), ("ebike", JVal.null),
         ("is_returning", JVal.null), ("due_date", JVal.js "2026-02-01 08:00"),
         ("commune", JVal.null), ("code_insee", JVal.null),
         ("geo", JVal.null)] = some (JVal.js v) ∧ v ≠ "" ∧
      List.lookup "due_date"
        [("station_code", JVal.js "103"), ("name", JVal.null),
         ("is_installed", JVal.null), ("capacity", JVal.null),
         ("numdocksavailable", JVal.null), ("numbikesavailable", JVal.null),
         ("mechanical", JVal.null), ("ebike", JVal.null),
         ("is_returning", JVal.null), ("due_date", JVal.js "2026-02-01 08:00"),
         ("commune", JVal.null), ("code_insee", JVal.null),
         ("geo", JVal.null)] = some (JVal.js w) ∧ w ≠ "") ∧
    (∃ r,
      [({ station_code := "105", station_name := .vnone, commune := .vnone,
          capacity := none, docks_available := none, bikes_available := none,
          bikes_mechanical := none, bikes_ebike := none, is_installed := none,
          is_returning := none, due_date := ⟨2026, 2, 1, 8, 0, 0⟩,
          code_insee := "75056", geo := "48.8,2.3" } : VRow)] =
        velibUpsert [] r ∧ r.station_code ≠ "" ∧ r.code_insee ≠ "" ∧
        r.geo ≠ "") := by
  constructor
  · exact claim_C5_amended_required.1
      ["Identifiant station", "Actualisation de la donnee"]
      [" 103 ", "2026-02-01 08:00"] _ (by decide)
  · exact claim_C5_amended_required.2 []
      [("station_code", .vs "105"), ("due_date", .vs "2026-02-01 08:00:00"),
       ("code_insee", .vs "75056"), ("geo", .vs "48.8,2.3")] _ (by decide)

theorem rGet_append (headers cells extra : List String)
    (hle : headers.length ≤ cells.length) (k : String) :
    rGet headers (cells ++ extra) k = rGet headers cells k := by
  unfold rGet
  rw [rowPairs_append headers cells extra hle]

/-- C8: a raw data row is emitted by the Normalizer if and only if its
resolved `station_code` and its resolved `due_date`-equivalent field are
present and non-empty (all other fields may be unknown without causing
rejection), and raw values with no corresponding header are silently
discarded (they change nothing about the row's processing). -/
theorem claim_C8_row_gate (headers cells : List String) :
    ((∃ rec, cleanRow headers cells = some rec) ↔
      truthyS (rowStation headers cells) = true ∧
      truthyS (rowDue headers cells) = true) ∧
    (∀ extra, headers.length ≤ cells.length →
      cleanRow headers (cells ++ extra) = cleanRow headers cells) := by
  constructor
  · constructor
    · rintro ⟨rec, hrec⟩
      simp only [cleanRow] at hrec
      by_cases hb : (truthyS (rowStation headers cells) &&
          truthyS (rowDue headers cells)) = true
      · rw [Bool.and_eq_true] at hb
        exact hb
      · rw [if_neg hb] at hrec
        exact absurd hrec (by simp)
    · rintro ⟨h1, h2⟩
      simp only [cleanRow]
      rw [if_pos (by rw [h1, h2]; rfl)]
      exact ⟨_, rfl⟩
  · intro extra hle
    have hg : rGet headers (cells ++ extra) = rGet headers cells :=
      funext (rGet_append headers cells extra hle)
    unfold cleanRow rowStation rowDue
    rw [hg]

/-- Witness for C8 at a concrete admitted row with one ragged extra cell. -/
theorem claim_C8_witness :
    (∃ rec, cleanRow
      ["Identifiant station", "Actualisation de la donnée",
       "Code INSEE communes équipées"]
      ["102", "2026-01-23 09:30:00", "75018"] = some rec) ∧
    cleanRow
      ["Identifiant station", "Actualisation de la donnée",
       "Code INSEE communes équipées"]
      (["102", "2026-01-23 09:30:00", "75018"] ++ ["extra"]) =
    cleanRow
      ["Identifiant station", "Actualisation de la donnée",
       "Code INSEE communes équipées"]
      ["102", "2026-01-23 09:30:00", "75018"] := by
  have h := claim_C8_row_gate
    ["Identifiant station", "Actualisation de la donnée",
     "Code INSEE communes équipées"]
    ["102", "2026-01-23 09:30:00", "75018"]
  exact ⟨h.1.mpr (by decide), h.2 ["extra"] (by decide)⟩

/-- C6: `insert_row` raises a validation error exactly when one of
`station_code`, `due_date`, `code_insee`, `geo` fails to resolve to a
non-empty trimmed value (or the due date is unparseable); the error message
names the failing field, the four messages are pairwise distinct, and on
any such error the store state is unchanged and the failure is logged with
the message's offset. -/
theorem claim_C6_validation_iff (db : List VRow) (m : Msg) :
    (exOk (insert_row db m) = false ↔
      pyStrip (pyStr (resolveStation m)) = "" ∨
      parse_due_date (resolveDue m) = none ∨
      pyStrip (pyStr (resolveInsee m)) = "" ∨
      pyStrip (pyStr (resolveGeo m)) = "") ∧
    (pyStrip (pyStr (resolveStation m)) = "" →
      insert_row db m = .error "station_code manquant") ∧
    (pyStrip (pyStr (resolveStation m)) ≠ "" →
      parse_due_date (resolveDue m) = none →
      insert_row db m = .error "due_date/duedate manquant ou illisible") ∧
    (pyStrip (pyStr (resolveStation m)) ≠ "" →
      parse_due_date (resolveDue m) ≠ none →
      pyStrip (pyStr (resolveInsee m)) = "" →
      insert_row db m = .error "code_insee manquant") ∧
    (pyStrip (pyStr (resolveStation m)) ≠ "" →
      parse_due_date (resolveDue m) ≠ none →
      pyStrip (pyStr (resolveInsee m)) ≠ "" →
      pyStrip (pyStr (resolveGeo m)) = "" →
      insert_row db m = .error "geo manquant") ∧
    (∀ e, insert_row db m = .error e → ∀ storeOk committed off,
      (consumeStep storeOk db committed ⟨off, .payload m⟩).db = db ∧
      (consumeStep storeOk db committed ⟨off, .payload m⟩).committed = committed ∧
      (consumeStep storeOk db committed ⟨off, .payload m⟩).logged =
        some (off, e)) ∧
    (("station_code manquant" : String) ≠ "due_date/duedate manquant ou illisible" ∧
      ("station_code manquant" : String) ≠ "code_insee manquant" ∧
      ("station_code manquant" : String) ≠ "geo manquant" ∧
      ("due_date/duedate manquant ou illisible" : String) ≠ "code_insee manquant" ∧
      ("due_date/duedate manquant ou illisible" : String) ≠ "geo manquant" ∧
      ("code_insee manquant" : String) ≠ "geo manquant") := by
  refine ⟨⟨?_, ?_⟩, ?_, ?_, ?_, ?_, ?_, by decide⟩
  · intro h
    by_cases h1 : pyStrip (pyStr (resolveStation m)) = ""
    · exact Or.inl h1
    cases hdd : parse_due_date (resolveDue m) with
    | none => exact Or.inr (Or.inl rfl)
    | some dd =>
        by_cases h3 : pyStrip (pyStr (resolveInsee m)) = ""
        · exact Or.inr (Or.inr (Or.inl h3))
        by_cases h4 : pyStrip (pyStr (resolveGeo m)) = ""
        · exact Or.inr (Or.inr (Or.inr h4))
        exfalso
        rw [show insert_row db m = .ok (velibUpsert db
          { station_code := pyStrip (pyStr (resolveStation m))
            station_name := resolveName m
            commune := resolveCommune m
            capacity := to_int_or_none (msgGet m "capacity")
            docks_available := to_int_or_none (resolveDocks m)
            bikes_available := to_int_or_none (resolveBikes m)
            bikes_mechanical := to_int_or_none (resolveMechanical m)
            bikes_ebike := to_int_or_none (resolveEbike m)
            is_installed := to_int_or_none (msgGet m "is_installed")
            is_returning := to_int_or_none (msgGet m "is_returning")
            due_date := dd
            code_insee := pyStrip (pyStr (resolveInsee m))
            geo := pyStrip (pyStr (resolveGeo m)) }) from by
          simp [insert_row, h1, hdd, h3, h4]] at h
        simp [exOk] at h
  · intro h
    rcases h with h1 | h2 | h3 | h4
    · simp [insert_row, h1, exOk]
    · by_cases h1 : pyStrip (pyStr (resolveStation m)) = ""
      · simp [insert_row, h1, exOk]
      · simp [insert_row, h1, h2, exOk]
    · by_cases h1 : pyStrip (pyStr (resolveStation m)) = ""
      · simp [insert_row, h1, exOk]
      cases hdd : parse_due_date (resolveDue m) with
      | none => simp [insert_row, h1, hdd, exOk]
      | some dd => simp [insert_row, h1, hdd, h3, exOk]
    · by_cases h1 : pyStrip (pyStr (resolveStation m)) = ""
      · simp [insert_row, h1, exOk]
      cases hdd : parse_due_date (resolveDue m) with
      | none => simp [insert_row, h1, hdd, exOk]
      | some dd =>
          by_cases h3 : pyStrip (pyStr (resolveInsee m)) = ""
          · simp [insert_row, h1, hdd, h3, exOk]
          · simp [insert_row, h1, hdd, h3, h4, exOk]
  · intro h1
    simp [insert_row, h1]
  · intro h1 h2
    simp [insert_row, h1, h2]
  · intro h1 h2 h3
    cases hdd : parse_due_date (resolveDue m) with
    | none => exact absurd hdd h2
    | some dd => simp [insert_row, h1, hdd, h3]
  · intro h1 h2 h3 h4
    cases hdd : parse_due_date (resolveDue m) with
    | none => exact absurd hdd h2
    | some dd => simp [insert_row, h1, hdd, h3, h4]
  · intro e he storeOk committed off
    simp [consumeStep, decodeValue, he]

/-- Witness for C6: the message missing `geo` fails with the distinct
`geo` error and does not change the store. -/
theorem claim_C6_witness :
    insert_row [] msgNoGeo = .error "geo manquant" ∧
    (consumeStep true [] none ⟨3, .payload msgNoGeo⟩).db = [] := by
  have h := claim_C6_validation_iff [] msgNoGeo
  have he : insert_row [] msgNoGeo = .error "geo manquant" :=
    h.2.2.2.2.1 (by decide) (by decide) (by decide) (by decide)
  exact ⟨he, (h.2.2.2.2.2.1 "geo manquant" he true none 3).1⟩

/-- C1: in the steady-state loop the checkpoint is committed for a message
exactly when its decode, mapping and store write all succeed; on success
the committed offset is the message's position and the store holds the
upsert result; on any failure the store and checkpoint are unchanged and
the failure is logged with the message's position; and the loop always
proceeds across the rest of the stream. -/
theorem claim_C1_commit_iff_success (storeOk : Bool) (db : List VRow)
    (committed : Option Nat) (rec : KRecord) :
    ((consumeStep storeOk db committed rec).didCommit = true ↔
      storeOk = true ∧ ∃ m db2, decodeValue rec.value = .ok m ∧
        insert_row db m = .ok db2) ∧
    ((consumeStep storeOk db committed rec).didCommit = true →
      (consumeStep storeOk db committed rec).committed = some rec.offset ∧
      ∃ m db2, decodeValue rec.value = .ok m ∧ insert_row db m = .ok db2 ∧
        (consumeStep storeOk db committed rec).db = db2) ∧
    ((consumeStep storeOk db committed rec).didCommit = false →
      (consumeStep storeOk db committed rec).db = db ∧
      (consumeStep storeOk db committed rec).committed = committed ∧
      ∃ e, (consumeStep storeOk db committed rec).logged =
        some (rec.offset, e)) ∧
    (∀ st l1 l2, consumeAll st (l1 ++ l2) = consumeAll (consumeAll st l1) l2) := by
  refine ⟨?_, ?_, ?_, ?_⟩
  · cases hdec : decodeValue rec.value with
    | error e => simp [consumeStep, hdec]
    | ok m =>
        cases hins : insert_row db m with
        | error e => simp [consumeStep, hdec, hins]
        | ok db2 => cases storeOk <;> simp [consumeStep, hdec, hins]
  · cases hdec : decodeValue rec.value with
    | error e => simp [consumeStep, hdec]
    | ok m =>
        cases hins : insert_row db m with
        | error e => simp [consumeStep, hdec, hins]
        | ok db2 => cases storeOk <;> simp [consumeStep, hdec, hins]
  · cases hdec : decodeValue rec.value with
    | error e => simp [consumeStep, hdec]
    | ok m =>
        cases hins : insert_row db m with
        | error e => simp [consumeStep, hdec, hins]
        | ok db2 => cases storeOk <;> simp [consumeStep, hdec, hins]
  · intro st l1 l2
    simp [consumeAll, List.foldl_append]

/-- Witness for C1: a fully valid message at offset 7 with the store up is
committed at offset 7. -/
theorem claim_C1_witness :
    (consumeStep true [] none ⟨7, .payload msgOkC1⟩).didCommit = true ∧
    (consumeStep true [] none ⟨7, .payload msgOkC1⟩).committed = some 7 := by
  have h := claim_C1_commit_iff_success true [] none ⟨7, .payload msgOkC1⟩
  have hc : (consumeStep true [] none ⟨7, .payload msgOkC1⟩).didCommit = true := by
    decide
  exact ⟨hc, (h.2.1 hc).1⟩

end NFE101
